import Mathlib

/-!
Shallow embedding of `src/packages/gemma-tokenizer/src/lib.rs` (LanguageForest).

The module wraps an external tokenization library behind a write-once global
`OnceCell<Tokenizer>`: `resolve_model_path` classifies a filesystem path,
`init` / `init_from_json` load a model and commit it once, `encode` /
`count_internal` query the committed model, and the wasm-boundary `count`
degrades every internal error to 0 and clamps to the `u32` range.

The filesystem and the external `tokenizers` crate are collaborators outside
this repository: the filesystem is modelled as a pair of predicates
(`is_dir` / `is_file`), and the external library per the spec contract
(`load -> Model | Error`, `Model.encode -> sequence of token ids | Error`).
Global state is passed explicitly: every operation takes the current contents
of the `TOKENIZER` cell and returns its result together with the new contents.
-/

namespace GemmaTokenizer

/-- A filesystem snapshot, as seen by the read-only existence/type checks
`Path::is_dir` and `Path::is_file` used in `resolve_model_path`. -/
structure FS where
  is_dir : String → Bool
  is_file : String → Bool

/-- `Path::join` for a relative component, modelled on path strings. -/
def pathJoin (p c : String) : String := p ++ "/" ++ c

/-- The characters strictly after the last occurrence of `sep`, if `sep`
occurs at all. -/
def afterLast (sep : Char) : List Char → Option (List Char)
  | [] => none
  | c :: cs =>
    match afterLast sep cs with
    | some r => some r
    | none => if c = sep then some cs else none

/-- The final path component (`Path::file_name`): the characters after the
last path separator, or the whole path when it has none. -/
def fileNameOf (p : String) : List Char :=
  (afterLast '/' p.toList).getD p.toList

/-- `Path::extension`: the portion of the file name after its last `.`,
where a leading `.` does not start an extension (so `.json` has none). -/
def rustExtension (p : String) : Option (List Char) :=
  match fileNameOf p with
  | [] => none
  | _ :: rest => afterLast '.' rest

/-- ASCII lowercasing of one character, as in `u8::to_ascii_lowercase`. -/
def asciiLower (c : Char) : Char :=
  if 'A' ≤ c ∧ c ≤ 'Z' then Char.ofNat (c.toNat + 32) else c

/-- `str::eq_ignore_ascii_case`. -/
def eqIgnoreAsciiCase (a b : List Char) : Bool :=
  a.map asciiLower == b.map asciiLower

/-- The `is_json` test of `resolve_model_path`:
`p.extension().and_then(|e| e.to_str()).map(|ext| ext.eq_ignore_ascii_case("json")).unwrap_or(false)`
(`to_str` always succeeds in this string model). -/
def isJsonExt (p : String) : Bool :=
  ((rustExtension p).map (fun e => eqIgnoreAsciiCase e "json".toList)).getD false

/-- `enum ModelPathKind { Json(PathBuf) }`. -/
inductive ModelPathKind where
  | Json : String → ModelPathKind
deriving DecidableEq

/-- The message of the first `bail!` in `resolve_model_path`. -/
def msg_dir_no_tokenizer (p : String) : String :=
  "No tokenizer.json found in directory: " ++ p ++
    ". Convert .model to tokenizer.json first."

/-- The message of the second `bail!` in `resolve_model_path`. -/
def msg_not_tokenizer_file (p : String) : String :=
  "Provided file is not tokenizer.json: " ++ p

/-- The message of the final `bail!` in `resolve_model_path`. -/
def msg_not_exist (p : String) : String :=
  "Path does not exist: " ++ p

/-- The `anyhow!` message when the external loader rejects a resolved file. -/
def msg_load_failed (p e : String) : String :=
  "Failed to load tokenizer from " ++ p ++ ": " ++ e

/-- The `map_err` message of `TOKENIZER.set` in `init` and `init_from_json`. -/
def MSG_ALREADY : String := "Tokenizer already initialized"

/-- The message of `get_tokenizer` on an empty cell. -/
def MSG_NOT_INIT : String := "Tokenizer is not initialized. Call init(path) first."

/-- The `anyhow!` message when the model rejects a text during encoding. -/
def msg_encode_failed (e : String) : String :=
  "Failed to encode text: " ++ e

/-- `resolve_model_path`: classify a path into a loadable `tokenizer.json`
definition file or a failure message, exactly as the source does. -/
def resolve_model_path (fs : FS) (p : String) : Except String ModelPathKind :=
  if fs.is_dir p then
    let json := pathJoin p "tokenizer.json"
    if fs.is_file json then
      Except.ok (ModelPathKind.Json json)
    else
      Except.error (msg_dir_no_tokenizer p)
  else if fs.is_file p then
    if isJsonExt p then
      Except.ok (ModelPathKind.Json p)
    else
      Except.error (msg_not_tokenizer_file p)
  else
    Except.error (msg_not_exist p)

/-- Modelled from the spec: the external tokenization library's encoding
result is an ordered sequence of non-negative integer token identifiers
(the crate itself is not part of this repository). -/
structure Encoding where
  ids : List Nat

/-- `Encoding::len`: the number of token identifiers. -/
def Encoding.len (e : Encoding) : Nat := e.ids.length

/-- `Encoding::get_ids` followed by `to_vec`. -/
def Encoding.get_ids (e : Encoding) : List Nat := e.ids

/-- Modelled from the spec: the opaque model capability, exposing only
`encode(text, add_special_tokens) -> Encoding | Error`. -/
structure Tokenizer where
  encode : String → Bool → Except String Encoding

/-- Modelled from the spec: the external loader capabilities
`Tokenizer::from_file` and `Tokenizer::from_str` of the wrapped crate. -/
structure ExtLib where
  from_file : FS → String → Except String Tokenizer
  from_str : String → Except String Tokenizer

/-- `TOKENIZER.set(tokenizer)` on the global `OnceCell`, modelled from the
spec and the once_cell contract as one atomic step: commit into an empty
cell, reject and preserve a full one. -/
def commit (tokenizer : Tokenizer) (s : Option Tokenizer) :
    Except String Unit × Option Tokenizer :=
  match s with
  | none => (Except.ok (), some tokenizer)
  | some t0 => (Except.error MSG_ALREADY, some t0)

/-- `init`: resolve the path, load the model from the resolved file, then
try to commit it into the global cell. -/
def init (lib : ExtLib) (fs : FS) (path : String) (s : Option Tokenizer) :
    Except String Unit × Option Tokenizer :=
  match resolve_model_path fs path with
  | Except.error e => (Except.error e, s)
  | Except.ok (ModelPathKind.Json json_path) =>
    match lib.from_file fs json_path with
    | Except.error e =>
      (Except.error (msg_load_failed json_path e), s)
    | Except.ok tokenizer => commit tokenizer s

/-- `init_from_json` (wasm export): parse the in-memory definition, then try
to commit it into the global cell. -/
def init_from_json (lib : ExtLib) (json : String) (s : Option Tokenizer) :
    Except String Unit × Option Tokenizer :=
  match lib.from_str json with
  | Except.error e => (Except.error e, s)
  | Except.ok tokenizer => commit tokenizer s

/-- `get_tokenizer`: read the global cell. -/
def get_tokenizer (s : Option Tokenizer) : Except String Tokenizer :=
  match s with
  | some t => Except.ok t
  | none => Except.error MSG_NOT_INIT

/-- `count_internal`: token count of one text, propagating errors. -/
def count_internal (text : String) (s : Option Tokenizer) : Except String Nat :=
  match get_tokenizer s with
  | Except.error e => Except.error e
  | Except.ok tok =>
    match tok.encode text false with
    | Except.error e => Except.error (msg_encode_failed e)
    | Except.ok encoding => Except.ok encoding.len

/-- `encode`: token identifiers of one text, propagating errors. -/
def encode (text : String) (s : Option Tokenizer) : Except String (List Nat) :=
  match get_tokenizer s with
  | Except.error e => Except.error e
  | Except.ok tok =>
    match tok.encode text false with
    | Except.error e => Except.error (msg_encode_failed e)
    | Except.ok encoding => Except.ok encoding.get_ids

/-- `u32::MAX`. -/
def U32_MAX : Nat := 2 ^ 32 - 1

/-- `count` (wasm export): `u32::try_from(n).unwrap_or(u32::MAX)` on success,
`0` on any internal error. -/
def count (text : String) (s : Option Tokenizer) : Nat :=
  match count_internal text s with
  | Except.ok n => if n ≤ U32_MAX then n else U32_MAX
  | Except.error _ => 0

/-- Modelled from the spec: N concurrent initialization attempts whose
loading already succeeded, executed as an arbitrary sequential interleaving
of their atomic commit steps (once_cell guarantees each `set` is atomic, so
every concurrent execution is one such interleaving). Returns each caller's
outcome in interleaving order together with the final cell contents. -/
def runCommits : List Tokenizer → Option Tokenizer →
    List (Except String Unit) × Option Tokenizer
  | [], s => ([], s)
  | m :: ms, s =>
    let r := commit m s
    let rest := runCommits ms r.2
    (r.1 :: rest.1, rest.2)

/-- A concrete external model used for witnesses: one token id per input
character. -/
def tokA : Tokenizer :=
  ⟨fun t _ => Except.ok ⟨List.replicate t.length 0⟩⟩

/-- A concrete external model whose encodings exceed the `u32` range. -/
def tokBig : Tokenizer :=
  ⟨fun _ _ => Except.ok ⟨List.replicate (2 ^ 32) 0⟩⟩

/-- A concrete loader that always succeeds with `tokA`. -/
def libA : ExtLib :=
  ⟨fun _ _ => Except.ok tokA, fun _ => Except.ok tokA⟩

/-- A concrete loader that always fails. -/
def libBad : ExtLib :=
  ⟨fun _ _ => Except.error "bad definition", fun _ => Except.error "bad definition"⟩

/-- An empty filesystem. -/
def fsEmpty : FS := ⟨fun _ => false, fun _ => false⟩

/-- A filesystem with one model directory `model` holding `tokenizer.json`. -/
def fsYes : FS :=
  ⟨fun p => p == "model", fun p => p == "model/tokenizer.json"⟩

/-- A filesystem with two plain files `a.JSON` and `a.txt`. -/
def fsFiles : FS :=
  ⟨fun _ => false, fun p => p == "a.JSON" || p == "a.txt"⟩

/-- A filesystem with one directory `model` holding no files at all. -/
def fsDirOnly : FS := ⟨fun p => p == "model", fun _ => false⟩

/-- C4: for a directory path, `resolve_model_path` succeeds with
`Json(directory/tokenizer.json)` exactly when that file exists in the
directory; otherwise it fails with the not-found message, which names the
directory and ends with the legacy-conversion hint. -/
theorem resolve_dir_spec (fs : FS) (p : String) (hdir : fs.is_dir p = true) :
    (resolve_model_path fs p =
        Except.ok (ModelPathKind.Json (pathJoin p "tokenizer.json")) ↔
      fs.is_file (pathJoin p "tokenizer.json") = true) ∧
    (fs.is_file (pathJoin p "tokenizer.json") = false →
      resolve_model_path fs p = Except.error (msg_dir_no_tokenizer p) ∧
      ∃ a b, msg_dir_no_tokenizer p = a ++ p ++ b ∧
        b = ". Convert .model to tokenizer.json first.") := by
  cases hf : fs.is_file (pathJoin p "tokenizer.json") with
  | true =>
    refine ⟨?_, fun hcontra => by simp [hf] at hcontra⟩
    simp [resolve_model_path, hdir, hf]
  | false =>
    refine ⟨?_, fun _ => ⟨?_, "No tokenizer.json found in directory: ",
      ". Convert .model to tokenizer.json first.", rfl, rfl⟩⟩
    · simp [resolve_model_path, hdir, hf]
    · simp [resolve_model_path, hdir, hf]

/-- C4 witness: in a filesystem where directory `model` holds
`tokenizer.json`, resolution succeeds with it; in an empty-directory
filesystem it fails with the conversion-hint message. -/
theorem resolve_dir_spec_witness :
    resolve_model_path fsYes "model" =
      Except.ok (ModelPathKind.Json "model/tokenizer.json") ∧
    resolve_model_path fsDirOnly "model" =
      Except.error (msg_dir_no_tokenizer "model") :=
  ⟨(resolve_dir_spec fsYes "model" rfl).1.mpr rfl,
   ((resolve_dir_spec fsDirOnly "model" rfl).2 rfl).1⟩

/-- C5: for an existing regular file, `resolve_model_path` succeeds with
`Json(path)` exactly when the extension case-insensitively equals `json`;
otherwise it fails with the unsupported-format message, which names the
file. -/
theorem resolve_file_spec (fs : FS) (p : String) (hnd : fs.is_dir p = false)
    (hf : fs.is_file p = true) :
    (resolve_model_path fs p = Except.ok (ModelPathKind.Json p) ↔
      isJsonExt p = true) ∧
    (isJsonExt p = false →
      resolve_model_path fs p = Except.error (msg_not_tokenizer_file p) ∧
      ∃ a, msg_not_tokenizer_file p = a ++ p) := by
  cases hj : isJsonExt p with
  | true =>
    refine ⟨?_, fun hcontra => by simp [hj] at hcontra⟩
    simp [resolve_model_path, hnd, hf, hj]
  | false =>
    refine ⟨?_, fun _ => ⟨?_, "Provided file is not tokenizer.json: ", rfl⟩⟩
    · simp [resolve_model_path, hnd, hf, hj]
    · simp [resolve_model_path, hnd, hf, hj]

/-- C5 witness: the file `a.JSON` resolves (case-insensitive extension),
while the file `a.txt` is rejected as unsupported. -/
theorem resolve_file_spec_witness :
    resolve_model_path fsFiles "a.JSON" =
      Except.ok (ModelPathKind.Json "a.JSON") ∧
    resolve_model_path fsFiles "a.txt" =
      Except.error (msg_not_tokenizer_file "a.txt") :=
  ⟨(resolve_file_spec fsFiles "a.JSON" rfl rfl).1.mpr (by decide),
   ((resolve_file_spec fsFiles "a.txt" rfl rfl).2 (by decide)).1⟩

/-- C6: for a path that is neither a directory nor an existing file,
`resolve_model_path` fails with the does-not-exist message, which names
that exact path. -/
theorem resolve_missing_spec (fs : FS) (p : String) (h1 : fs.is_dir p = false)
    (h2 : fs.is_file p = false) :
    resolve_model_path fs p = Except.error (msg_not_exist p) ∧
    ∃ a, msg_not_exist p = a ++ p := by
  refine ⟨?_, "Path does not exist: ", rfl⟩
  simp [resolve_model_path, h1, h2]

/-- C6 witness: resolving `/no/such/path` in an empty filesystem. -/
theorem resolve_missing_spec_witness :
    resolve_model_path fsEmpty "/no/such/path" =
      Except.error (msg_not_exist "/no/such/path") :=
  (resolve_missing_spec fsEmpty "/no/such/path" rfl rfl).1

/-- C7: on the uninitialized state, `encode` and `count_internal` both
fail with the not-initialized message (which instructs the caller to call
init first), and `encode` never returns a token-id sequence. -/
theorem query_uninitialized_spec (text : String) :
    encode text none = Except.error MSG_NOT_INIT ∧
    count_internal text none = Except.error MSG_NOT_INIT ∧
    (∀ ids, encode text none ≠ Except.ok ids) ∧
    (∃ a, MSG_NOT_INIT = a ++ "Call init(path) first.") :=
  ⟨rfl, rfl, fun _ h => Except.noConfusion h,
   ⟨"Tokenizer is not initialized. ", rfl⟩⟩

/-- C2: whenever `count_internal` and `encode` both succeed on the same
state and text, the count equals the length of the id sequence. -/
theorem count_internal_eq_encode_length (s : Option Tokenizer) (text : String)
    (n : Nat) (ids : List Nat) (hc : count_internal text s = Except.ok n)
    (he : encode text s = Except.ok ids) : n = ids.length := by
  cases s with
  | none => exact Except.noConfusion hc
  | some tok =>
    cases henc : tok.encode text false with
    | error e =>
      simp [count_internal, get_tokenizer, henc] at hc
    | ok encoding =>
      simp [count_internal, get_tokenizer, henc] at hc
      simp [encode, get_tokenizer, henc] at he
      subst hc
      subst he
      rfl

/-- C2 witness: with the one-id-per-character model on `"ab"`, the count 2
matches the length of the encoded sequence `[0, 0]`. -/
theorem count_internal_eq_encode_length_witness :
    count_internal "ab" (some tokA) = Except.ok 2 ∧
    encode "ab" (some tokA) = Except.ok [0, 0] ∧
    2 = ([0, 0] : List Nat).length :=
  ⟨rfl, rfl,
   count_internal_eq_encode_length (some tokA) "ab" 2 [0, 0] rfl rfl⟩

/-- Evaluation of `count_internal` on the oversized model, without
materializing its `2 ^ 32` token ids. -/
theorem countInternal_tokBig :
    count_internal "x" (some tokBig) = Except.ok (2 ^ 32) := by
  show Except.ok (Encoding.len ⟨List.replicate (2 ^ 32) 0⟩) = Except.ok (2 ^ 32)
  rw [Encoding.len, List.length_replicate]

/-- C3: the wasm-boundary `count` returns 0 whenever `count_internal`
fails, returns the exact count when it fits in `u32`, and clamps to
`u32::MAX` when it does not. -/
theorem count_boundary_total (s : Option Tokenizer) (text : String) :
    (∀ e, count_internal text s = Except.error e → count text s = 0) ∧
    (∀ n, count_internal text s = Except.ok n → n ≤ U32_MAX →
      count text s = n) ∧
    (∀ n, count_internal text s = Except.ok n → U32_MAX < n →
      count text s = U32_MAX) := by
  refine ⟨fun e he => ?_, fun n hn hle => ?_, fun n hn hgt => ?_⟩
  · rw [count, he]
  · rw [count, hn]
    exact if_pos hle
  · rw [count, hn]
    exact if_neg (not_le.mpr hgt)

/-- C3 witness: `count` is 0 before initialization, exact on a 2-token
text, and clamped to `u32::MAX` on a model yielding `2 ^ 32` tokens. -/
theorem count_boundary_total_witness :
    count "x" none = 0 ∧ count "ab" (some tokA) = 2 ∧
    count "x" (some tokBig) = U32_MAX :=
  ⟨(count_boundary_total none "x").1 MSG_NOT_INIT rfl,
   (count_boundary_total (some tokA) "ab").2.1 2 rfl (by decide),
   (count_boundary_total (some tokBig) "x").2.2 (2 ^ 32) countInternal_tokBig
     (by decide)⟩

/-- On an already-full cell, `init` always fails and preserves the cell. -/
theorem init_on_initialized (lib : ExtLib) (fs : FS) (p : String) (t : Tokenizer) :
    (init lib fs p (some t)).2 = some t ∧
    ∃ e, (init lib fs p (some t)).1 = Except.error e := by
  cases hr : resolve_model_path fs p with
  | error e =>
    simp [init, hr]
  | ok k =>
    cases k with
    | Json jp =>
      cases hl : lib.from_file fs jp with
      | error e => simp [init, hr, hl]
      | ok tok => simp [init, hr, hl, commit]

/-- On an already-full cell, `init_from_json` always fails and preserves
the cell. -/
theorem init_from_json_on_initialized (lib : ExtLib) (j : String) (t : Tokenizer) :
    (init_from_json lib j (some t)).2 = some t ∧
    ∃ e, (init_from_json lib j (some t)).1 = Except.error e := by
  cases hl : lib.from_str j with
  | error e => simp [init_from_json, hl]
  | ok tok => simp [init_from_json, hl, commit]

/-- A successful `init` leaves the cell full. -/
theorem init_ok_some (lib : ExtLib) (fs : FS) (path : String)
    (s : Option Tokenizer) (h : (init lib fs path s).1 = Except.ok ()) :
    ∃ t, (init lib fs path s).2 = some t := by
  cases hr : resolve_model_path fs path with
  | error e =>
    rw [init, hr] at h
    exact Except.noConfusion h
  | ok k =>
    cases k with
    | Json jp =>
      cases hl : lib.from_file fs jp with
      | error e =>
        rw [init, hr] at h
        simp [hl] at h
      | ok tok =>
        cases s with
        | none => exact ⟨tok, by simp [init, hr, hl, commit]⟩
        | some t0 => exact ⟨t0, by simp [init, hr, hl, commit]⟩

/-- A successful `init_from_json` leaves the cell full. -/
theorem init_from_json_ok_some (lib : ExtLib) (j : String)
    (s : Option Tokenizer) (h : (init_from_json lib j s).1 = Except.ok ()) :
    ∃ t, (init_from_json lib j s).2 = some t := by
  cases hl : lib.from_str j with
  | error e =>
    rw [init_from_json, hl] at h
    exact Except.noConfusion h
  | ok tok =>
    cases s with
    | none => exact ⟨tok, by simp [init_from_json, hl, commit]⟩
    | some t0 => exact ⟨t0, by simp [init_from_json, hl, commit]⟩

/-- C1 (amended): after one successful initialization from either source,
every later initialization attempt fails — with `AlreadyInitialized`
whenever its resolution and loading succeed — leaves the stored model
unchanged, and leaves all `encode`/`count` results unchanged. -/
theorem init_write_once (lib : ExtLib) (fs : FS) (path json : String)
    (s s' : Option Tokenizer)
    (hinit : ((init lib fs path s).1 = Except.ok () ∧
        s' = (init lib fs path s).2) ∨
      ((init_from_json lib json s).1 = Except.ok () ∧
        s' = (init_from_json lib json s).2)) :
    ∀ (lib2 : ExtLib) (fs2 : FS) (path2 json2 : String),
      (init lib2 fs2 path2 s').2 = s' ∧
      (∃ e, (init lib2 fs2 path2 s').1 = Except.error e) ∧
      (init_from_json lib2 json2 s').2 = s' ∧
      (∃ e, (init_from_json lib2 json2 s').1 = Except.error e) ∧
      (∀ jp tok, resolve_model_path fs2 path2 =
          Except.ok (ModelPathKind.Json jp) →
        lib2.from_file fs2 jp = Except.ok tok →
        (init lib2 fs2 path2 s').1 = Except.error MSG_ALREADY) ∧
      (∀ tok, lib2.from_str json2 = Except.ok tok →
        (init_from_json lib2 json2 s').1 = Except.error MSG_ALREADY) ∧
      (∀ text, encode text (init lib2 fs2 path2 s').2 = encode text s' ∧
        count text (init lib2 fs2 path2 s').2 = count text s' ∧
        encode text (init_from_json lib2 json2 s').2 = encode text s' ∧
        count text (init_from_json lib2 json2 s').2 = count text s') := by
  obtain ⟨t, ht⟩ : ∃ t, s' = some t := by
    rcases hinit with ⟨h, hs⟩ | ⟨h, hs⟩
    · obtain ⟨t, h2⟩ := init_ok_some lib fs path s h
      exact ⟨t, hs.trans h2⟩
    · obtain ⟨t, h2⟩ := init_from_json_ok_some lib json s h
      exact ⟨t, hs.trans h2⟩
  subst ht
  intro lib2 fs2 path2 json2
  obtain ⟨hi2, hie⟩ := init_on_initialized lib2 fs2 path2 t
  obtain ⟨hj2, hje⟩ := init_from_json_on_initialized lib2 json2 t
  refine ⟨hi2, hie, hj2, hje, ?_, ?_, ?_⟩
  · intro jp tok hr hl
    simp [init, hr, hl, commit]
  · intro tok hl
    simp [init_from_json, hl, commit]
  · intro text
    rw [hi2, hj2]
    exact ⟨rfl, rfl, rfl, rfl⟩

/-- C1 witness: a path-based attempt and an in-memory attempt after one
successful in-memory initialization, the latter observing
`AlreadyInitialized`. -/
theorem init_write_once_witness :
    (init libA fsEmpty "/nope" (init_from_json libA "j" none).2).2 =
      (init_from_json libA "j" none).2 ∧
    (init_from_json libA "j" (init_from_json libA "j" none).2).1 =
      Except.error MSG_ALREADY :=
  have h := init_write_once libA fsEmpty "/nope" "j" none
    (init_from_json libA "j" none).2 (Or.inr ⟨rfl, rfl⟩) libA fsEmpty "/nope" "j"
  ⟨h.1, h.2.2.2.2.2.1 tokA rfl⟩

/-- C1 counterexample: after a successful initialization, a later `init`
whose path fails to resolve returns the resolution error, not
`AlreadyInitialized`. -/
theorem second_init_not_always_already :
    (init_from_json libA "j" none).1 = Except.ok () ∧
    (init libA fsEmpty "/nope" (init_from_json libA "j" none).2).1 =
      Except.error (msg_not_exist "/nope") ∧
    msg_not_exist "/nope" ≠ MSG_ALREADY :=
  ⟨rfl, rfl, by decide⟩

/-- C8: a failed `init` leaves the cell unchanged; in particular a failure
from the uninitialized state leaves it uninitialized, so a retry with a
resolvable, loadable path succeeds. -/
theorem init_failure_preserves_state (lib : ExtLib) (fs : FS) (path : String)
    (s : Option Tokenizer) (e : String)
    (h : (init lib fs path s).1 = Except.error e) :
    (init lib fs path s).2 = s ∧
    (s = none → ∀ (lib2 : ExtLib) (fs2 : FS) (p2 jp : String) (tok : Tokenizer),
      resolve_model_path fs2 p2 = Except.ok (ModelPathKind.Json jp) →
      lib2.from_file fs2 jp = Except.ok tok →
      init lib2 fs2 p2 (init lib fs path s).2 = (Except.ok (), some tok)) := by
  have hstate : (init lib fs path s).2 = s := by
    cases hr : resolve_model_path fs path with
    | error er => simp [init, hr]
    | ok k =>
      cases k with
      | Json jp =>
        cases hl : lib.from_file fs jp with
        | error er => simp [init, hr, hl]
        | ok tok =>
          cases s with
          | none =>
            exfalso
            simp [init, hr, hl, commit] at h
          | some t0 => simp [init, hr, hl, commit]
  refine ⟨hstate, fun hnone lib2 fs2 p2 jp tok hr2 hl2 => ?_⟩
  rw [hstate, hnone]
  simp [init, hr2, hl2, commit]

/-- C8 witness: `init` on a missing path from the empty state leaves it
empty, and a retry against a directory holding `tokenizer.json` commits. -/
theorem init_failure_preserves_state_witness :
    (init libA fsEmpty "/nope" none).2 = none ∧
    init libA fsYes "model" (init libA fsEmpty "/nope" none).2 =
      (Except.ok (), some tokA) :=
  have h := init_failure_preserves_state libA fsEmpty "/nope" none
    (msg_not_exist "/nope") rfl
  ⟨h.1, h.2 rfl libA fsYes "model" "model/tokenizer.json" tokA rfl rfl⟩

/-- Commit attempts against an already-full cell all fail and preserve it. -/
theorem runCommits_on_full (ms : List Tokenizer) (t : Tokenizer) :
    runCommits ms (some t) =
      (ms.map (fun _ => Except.error MSG_ALREADY), some t) := by
  induction ms with
  | nil => rfl
  | cons m ms ih => simp [runCommits, commit, ih]

/-- No commit attempt against a full cell reports success. -/
theorem filter_ok_map_error (ms : List Tokenizer) :
    ((ms.map (fun _ => (Except.error MSG_ALREADY : Except String Unit))).filter
      (fun r => r.isOk)).length = 0 := by
  induction ms with
  | nil => rfl
  | cons m ms ih => exact ih

/-- C9: in every interleaving of N initialization commit attempts starting
from the empty cell, the first attempt commits its model permanently, the
other N−1 observe `AlreadyInitialized`, and exactly one attempt succeeds. -/
theorem concurrent_commit_exactly_once (t : Tokenizer) (ts : List Tokenizer) :
    runCommits (t :: ts) none =
      (Except.ok () :: ts.map (fun _ => Except.error MSG_ALREADY), some t) ∧
    ((runCommits (t :: ts) none).1.filter (fun r => r.isOk)).length = 1 := by
  have h1 : runCommits (t :: ts) none =
      (Except.ok () :: ts.map (fun _ => Except.error MSG_ALREADY), some t) := by
    simp [runCommits, commit, runCommits_on_full]
  refine ⟨h1, ?_⟩
  rw [h1]
  show (Except.ok () ::
    (ts.map (fun _ => (Except.error MSG_ALREADY : Except String Unit))).filter
      (fun r => r.isOk)).length = 1
  rw [List.length_cons, filter_ok_map_error]

/-- C10: `init` resolves and loads before consulting the cell, so on an
already-initialized state it reports a resolution or loading failure when
one occurs, and `AlreadyInitialized` only when both steps succeed. -/
theorem init_checks_state_last (lib : ExtLib) (fs : FS) (path : String)
    (t : Tokenizer) :
    (∀ e, resolve_model_path fs path = Except.error e →
      init lib fs path (some t) = (Except.error e, some t)) ∧
    (∀ jp e, resolve_model_path fs path = Except.ok (ModelPathKind.Json jp) →
      lib.from_file fs jp = Except.error e →
      init lib fs path (some t) =
        (Except.error (msg_load_failed jp e), some t)) ∧
    (∀ jp tok, resolve_model_path fs path = Except.ok (ModelPathKind.Json jp) →
      lib.from_file fs jp = Except.ok tok →
      init lib fs path (some t) = (Except.error MSG_ALREADY, some t)) := by
  refine ⟨fun e hr => ?_, fun jp e hr hl => ?_, fun jp tok hr hl => ?_⟩
  · simp [init, hr]
  · simp [init, hr, hl]
  · simp [init, hr, hl, commit]

/-- C10 witness: on an initialized state, a missing path yields the
not-found error, a rejected definition yields the load error, and a valid
definition yields `AlreadyInitialized`. -/
theorem init_checks_state_last_witness :
    init libA fsEmpty "/nope" (some tokA) =
      (Except.error (msg_not_exist "/nope"), some tokA) ∧
    init libBad fsYes "model" (some tokA) =
      (Except.error (msg_load_failed "model/tokenizer.json" "bad definition"),
        some tokA) ∧
    init libA fsYes "model" (some tokA) =
      (Except.error MSG_ALREADY, some tokA) :=
  ⟨(init_checks_state_last libA fsEmpty "/nope" tokA).1
      (msg_not_exist "/nope") rfl,
   (init_checks_state_last libBad fsYes "model" tokA).2.1
      "model/tokenizer.json" "bad definition" rfl rfl,
   (init_checks_state_last libA fsYes "model" tokA).2.2
      "model/tokenizer.json" tokA rfl rfl⟩

end GemmaTokenizer
